import Mathlib

/-!
Verification of the paczkomat_finder_gpx pipeline (src/main.py).

The Python source is shallowly embedded: each function below mirrors the
corresponding Python function.  File and network I/O are factored out: the
GPX loading step is represented by passing the flattened list of track
points directly, and the HTTP layer is represented by an abstract response
value.  The geodesic distance computed by the external `geopy` library is an
abstract parameter `dist : Point → Point → ℚ`; Python floats are modelled as
exact rationals.
-/

namespace PaczkomatFinder

/-- A geographic point, `(latitude, longitude)` in degrees. -/
abbrev Point : Type := ℚ × ℚ

/-- A distance marker `(latitude, longitude, rounded cumulative distance in km)`
as produced by `get_distance_markers` (the third component is the result of
Python's `round`, an integer). -/
abbrev Marker : Type := ℚ × ℚ × ℤ

/-- Python's built-in `round` to the nearest integer with ties going to the
even integer (banker's rounding), as applied to `round(total_distance)` in
`get_distance_markers` (src/main.py line 54). -/
def pythonRound (q : ℚ) : ℤ :=
  let f : ℤ := ⌊q⌋
  let frac : ℚ := q - f
  if frac < 1/2 then f
  else if 1/2 < frac then f + 1
  else if f % 2 = 0 then f else f + 1

/-- Python's `int()` conversion of a real number: truncation toward zero,
as applied to `int(radius_km * 1000)` (src/main.py line 110). -/
def pyInt (q : ℚ) : ℤ := if q < 0 then ⌈q⌉ else ⌊q⌋

/-! ## The coarse sampling pass (`parse_gpx_points_every_n_km`)

src/main.py lines 60-93.  The loop keeps the list `sampled_points`, the last
accepted point `last_added` and a `distance_accumulator`; each iteration adds
`geodesic(last_added, point)` to the accumulator and, once it reaches the
interval, appends the current point, re-bases `last_added` and resets the
accumulator to zero. -/

/-- The loop of `parse_gpx_points_every_n_km` (src/main.py lines 80-91),
threading the loop state `(sampled_points, last_added, distance_accumulator)`
explicitly. -/
def coarseLoop (dist : Point → Point → ℚ) (interval_km : ℚ)
    (sampled_points : List Point) (last_added : Point)
    (distance_accumulator : ℚ) : List Point → List Point
  | [] => sampled_points
  | point :: rest =>
    let segment_distance := dist last_added point
    let acc := distance_accumulator + segment_distance
    if acc ≥ interval_km then
      coarseLoop dist interval_km (sampled_points ++ [point]) point 0 rest
    else
      coarseLoop dist interval_km sampled_points last_added acc rest

/-- `parse_gpx_points_every_n_km` (src/main.py lines 60-93), with the GPX
file reading and flattening replaced by the flattened point list
`all_points`, and the geodesic distance of `geopy` abstracted as `dist`.
Returns the coarse sample used to drive the API queries. -/
def parse_gpx_points_every_n_km (dist : Point → Point → ℚ)
    (all_points : List Point) (interval_km : ℚ) : List Point :=
  match all_points with
  | [] => []
  | p0 :: rest => coarseLoop dist interval_km [p0] p0 0 rest

/-! ## The marker pass (`get_distance_markers`)

src/main.py lines 27-58.  The loop keeps the list `markers`, a running
`total_distance` and `last_point`; each iteration adds
`geodesic(last_point, point)` to the total, appends a marker when the list is
empty or `total_distance - markers[-1][2] >= interval_km`, and always
re-bases `last_point` to the current point. -/

/-- The loop of `get_distance_markers` (src/main.py lines 46-56), threading
the loop state `(markers, total_distance, last_point)` explicitly.  The
Python condition `len(markers) == 0 or total_distance - markers[-1][2] >=
interval_km` short-circuits, so it is modelled by matching on
`markers.getLast?`. -/
def markersLoop (dist : Point → Point → ℚ) (interval_km : ℚ)
    (markers : List Marker) (total_distance : ℚ) (last_point : Point) :
    List Point → List Marker
  | [] => markers
  | point :: rest =>
    let segment_distance := dist last_point point
    let total := total_distance + segment_distance
    let markers' :=
      match markers.getLast? with
      | none => markers ++ [(point.1, point.2, pythonRound total)]
      | some m =>
        if total - (m.2.2 : ℚ) ≥ interval_km then
          markers ++ [(point.1, point.2, pythonRound total)]
        else markers
    markersLoop dist interval_km markers' total point rest

/-- `get_distance_markers` (src/main.py lines 27-58), with the GPX file
reading and flattening replaced by the flattened point list `all_points`
and geodesic distance abstracted as `dist`. -/
def get_distance_markers (dist : Point → Point → ℚ)
    (all_points : List Point) (interval_km : ℚ) : List Marker :=
  match all_points with
  | [] => []
  | p0 :: rest => markersLoop dist interval_km [] 0 p0 rest

/-! ## The locker fetcher and the accumulation loop in `main`

src/main.py lines 95-136 and 179-184.  `get_nearby_parcel_lockers` has two
phases: building the HTTP request (lines 105-116) and handling the response
(lines 122-136).  On HTTP 200 it returns the parsed JSON body (a Python
dict); on any other status, and on any `requests.RequestException`, it
returns the empty Python *list* `[]`.  `main` then evaluates
`lockers.get("items", [])` on the returned value; `.get` exists on dicts but
not on lists, so on a list this raises `AttributeError`. -/

/-- A parcel-locker record from the API: a `name`, a nested location, and an
optional human-readable description. -/
structure LockerRecord where
  name : String
  latitude : ℚ
  longitude : ℚ
  location_description : Option String
deriving DecidableEq, Repr

/-- The parsed JSON body of a successful locator-API response.  Only the
`items` key is consumed by the program; `items := none` models a body
without that key. -/
structure ApiBody where
  items : Option (List LockerRecord)
deriving DecidableEq, Repr

/-- The outcome of one HTTP GET to the locator API: either a response with a
status code and (parsed) body, or a transport-level failure
(`requests.RequestException`: timeout, connection error, ...). -/
inductive HttpResult where
  | response (status : ℕ) (body : ApiBody)
  | transportError (msg : String)
deriving DecidableEq, Repr

/-- A Python value as returned by `get_nearby_parcel_lockers`: the parsed
JSON dict on success, or a list of records (in the code always the empty
list) on failure. -/
inductive PyValue where
  | pyDict (body : ApiBody)
  | pyList (l : List LockerRecord)
deriving DecidableEq, Repr

/-- A Python runtime error relevant to this program. -/
inductive PyError where
  | attributeError
  | indexError
deriving DecidableEq, Repr

/-- The response-handling phase of `get_nearby_parcel_lockers`
(src/main.py lines 122-136): on status 200 return the parsed JSON body (a
dict); on any other status, and on a transport error, log and return the
empty list. -/
def get_nearby_parcel_lockers (result : HttpResult) : PyValue :=
  match result with
  | .response status body =>
    if status = 200 then .pyDict body else .pyList []
  | .transportError _ => .pyList []

/-- Python's `lockers.get("items", [])` as evaluated in `main`
(src/main.py line 183): defined on a dict, where a missing `items` key
yields the default `[]`; on a list, attribute lookup of `.get` raises
`AttributeError`. -/
def pyGetItems (lockers : PyValue) : Except PyError (List LockerRecord) :=
  match lockers with
  | .pyDict body => .ok (body.items.getD [])
  | .pyList _ => .error .attributeError

/-- The fetch loop of `main` (src/main.py lines 179-184), with the HTTP
layer abstracted as `respond`, mapping each query point to the outcome of
its GET request.  Each iteration extends `all_lockers` with
`lockers.get("items", [])`; a raised Python error aborts the run. -/
def mainFetchLoop (respond : Point → HttpResult)
    (all_lockers : List LockerRecord) :
    List Point → Except PyError (List LockerRecord)
  | [] => .ok all_lockers
  | p :: rest =>
    match pyGetItems (get_nearby_parcel_lockers (respond p)) with
    | .ok items => mainFetchLoop respond (all_lockers ++ items) rest
    | .error e => .error e

/-! ## The deduplication loop in `main`

src/main.py lines 188-193: iterate `all_lockers` in order, keeping a set of
seen names; append a record to `unique_lockers` only the first time its name
is seen.  The Python `set` is modelled by a list of names with membership
lookup. -/

/-- The deduplication loop of `main` (src/main.py lines 188-193), threading
the state `(seen, unique_lockers)` explicitly. -/
def dedupLoop (seen : List String) (unique_lockers : List LockerRecord) :
    List LockerRecord → List LockerRecord
  | [] => unique_lockers
  | locker :: rest =>
    if locker.name ∈ seen then dedupLoop seen unique_lockers rest
    else dedupLoop (locker.name :: seen) (unique_lockers ++ [locker]) rest

/-- The deduplicated locker list computed by `main` from the concatenated
fetched records. -/
def uniqueLockers (all_lockers : List LockerRecord) : List LockerRecord :=
  dedupLoop [] [] all_lockers

/-! ## The request built by `get_nearby_parcel_lockers`

src/main.py lines 105-116. -/

/-- The query parameters of the locator request, mirroring the `params`
dict literal (src/main.py lines 107-112); `max_distance` is a Python int. -/
structure QueryParams where
  type : String
  relative_point : String
  max_distance : ℤ
  sort : String
deriving DecidableEq, Repr

/-- The full locator request: URL, query parameters, headers. -/
structure ApiRequest where
  url : String
  params : QueryParams
  headers : List (String × String)
deriving DecidableEq, Repr

/-- The decimal digit character for `n % 10`. -/
def digitChar (n : ℕ) : Char := Char.ofNat (48 + n % 10)

/-- The six fractional digits of `n` (given `n < 1000000`, its decimal
digits padded to width six), most significant first. -/
def fracDigits6 (n : ℕ) : String :=
  String.mk [digitChar (n / 100000), digitChar (n / 10000),
             digitChar (n / 1000), digitChar (n / 100),
             digitChar (n / 10), digitChar n]

/-- Python's fixed-point formatting `f"{q:.6f}"` (src/main.py line 106):
the value is rounded to six decimal places with ties to even, and printed
with a sign, an integer part, a point, and exactly six fractional digits. -/
def format6 (q : ℚ) : String :=
  let scaled : ℤ := pythonRound (q * 1000000)
  let n : ℕ := scaled.natAbs
  (if q < 0 then "-" else "") ++ toString (n / 1000000) ++ "." ++
    fracDigits6 (n % 1000000)

/-- The request-building phase of `get_nearby_parcel_lockers`
(src/main.py lines 105-116): the fixed URL, the `params` dict and the
`headers` dict. -/
def lockersRequest (lat lon radius_km : ℚ) (token : String) : ApiRequest :=
  { url := "https://api-shipx-pl.easypack24.net/v1/points"
    params :=
      { type := "parcel_locker"
        relative_point := format6 lat ++ "," ++ format6 lon
        max_distance := pyInt (radius_km * 1000)
        sort := "distance" }
    headers := [("Authorization", "Bearer " ++ token),
                ("Accept", "application/json")] }

/-! ## The map renderer (`create_map_with_lockers`)

src/main.py lines 138-168.  The folium map is modelled by the data placed on
it; `route_points[len(route_points) // 2]` raises `IndexError` when
`route_points` is empty, which is modelled by `List.get?`. -/

/-- The rendered folium map, modelled by its content: the centre location,
the polyline of route points, one pin with popup text per locker, and one
text label per distance marker. -/
structure FoliumMap where
  center : Point
  polyline : List Point
  lockerPins : List (Point × String)
  distanceLabels : List Marker
deriving DecidableEq, Repr

/-- `create_map_with_lockers` (src/main.py lines 138-168).  The centre is
`route_points[len(route_points) // 2]`, which raises `IndexError` on an
empty route; otherwise the map collects the polyline, the locker pins (with
popup `name<br>description`), and the distance labels. -/
def create_map_with_lockers (route_points : List Point)
    (lockers : List LockerRecord) (distance_markers : List Marker) :
    Except PyError FoliumMap :=
  match route_points.get? (route_points.length / 2) with
  | none => .error .indexError
  | some center_latlon =>
    .ok { center := center_latlon
          polyline := route_points
          lockerPins := lockers.map fun locker =>
            ((locker.latitude, locker.longitude),
             locker.name ++ "<br>" ++ locker.location_description.getD "")
          distanceLabels := distance_markers }

/-! ## Reformulations used to state and settle the claims

The definitions below restate the two sampling passes in alternative styles
(emitting recursion instead of an accumulator list, or an explicit
cumulative-totals list), and give the spec's wording of the passes where the
spec and the code disagree.  Each is compared with the source-mirroring
definitions above by a theorem. -/

/-- The coarse pass, emitting-recursion form: the accumulator grows by the
distance from the fixed base point (the last accepted point) to the current
point, and acceptance re-bases and resets it. -/
def coarseByBase (dist : Point → Point → ℚ) (interval_km : ℚ)
    (base : Point) (acc : ℚ) : List Point → List Point
  | [] => []
  | point :: rest =>
    let acc' := acc + dist base point
    if acc' ≥ interval_km then point :: coarseByBase dist interval_km point 0 rest
    else coarseByBase dist interval_km base acc' rest

/-- The coarse pass as described by the spec sentence under test in C2:
the accumulator grows by the geodesic distance between *consecutive raw
points* (the previous raw point is always the new reference), and
acceptance resets it. -/
def coarseConsecutive (dist : Point → Point → ℚ) (interval_km : ℚ)
    (prev : Point) (acc : ℚ) : List Point → List Point
  | [] => []
  | point :: rest =>
    let acc' := acc + dist prev point
    if acc' ≥ interval_km then
      point :: coarseConsecutive dist interval_km point 0 rest
    else coarseConsecutive dist interval_km point acc' rest

/-- Top-level consecutive-distance coarse sampling per the spec's words
(seed with the first point, then `coarseConsecutive`). -/
def coarseConsecutiveSample (dist : Point → Point → ℚ)
    (all_points : List Point) (interval_km : ℚ) : List Point :=
  match all_points with
  | [] => []
  | p0 :: rest => p0 :: coarseConsecutive dist interval_km p0 0 rest

/-- The marker pass, emitting-recursion form: the state is the recorded
(rounded) distance of the last accepted marker, if any, together with the
running total and the previous raw point. -/
def markersByLastRecorded (dist : Point → Point → ℚ) (interval_km : ℚ)
    (lastRec : Option ℤ) (total : ℚ) (last_point : Point) :
    List Point → List Marker
  | [] => []
  | point :: rest =>
    let total' := total + dist last_point point
    match lastRec with
    | none =>
      (point.1, point.2, pythonRound total') ::
        markersByLastRecorded dist interval_km (some (pythonRound total'))
          total' point rest
    | some r =>
      if total' - (r : ℚ) ≥ interval_km then
        (point.1, point.2, pythonRound total') ::
          markersByLastRecorded dist interval_km (some (pythonRound total'))
            total' point rest
      else
        markersByLastRecorded dist interval_km (some r) total' point rest

/-- The marker pass amended: accept a point when no marker has been
recorded yet, or when its total distance minus the recorded (rounded)
distance of the last accepted marker reaches the interval. -/
def amendedMarkers (dist : Point → Point → ℚ) (all_points : List Point)
    (interval_km : ℚ) : List Marker :=
  match all_points with
  | [] => []
  | p0 :: rest => markersByLastRecorded dist interval_km none 0 p0 rest

/-- The marker pass as claimed in C4: accept a point exactly when its total
distance since the start minus the *exact* total distance at acceptance of
the last accepted marker (zero when there is none) reaches the interval. -/
def markersByExactTotals (dist : Point → Point → ℚ) (interval_km : ℚ)
    (lastTotal : ℚ) (total : ℚ) (last_point : Point) :
    List Point → List Marker
  | [] => []
  | point :: rest =>
    let total' := total + dist last_point point
    if total' - lastTotal ≥ interval_km then
      (point.1, point.2, pythonRound total') ::
        markersByExactTotals dist interval_km total' total' point rest
    else markersByExactTotals dist interval_km lastTotal total' point rest

/-- Top-level marker pass per claim C4's words. -/
def claimedMarkers (dist : Point → Point → ℚ) (all_points : List Point)
    (interval_km : ℚ) : List Marker :=
  match all_points with
  | [] => []
  | p0 :: rest => markersByExactTotals dist interval_km 0 0 p0 rest

/-- The cumulative geodesic distance along consecutive raw points: pairs
each raw point (after the first) with the sum of the distances between
consecutive raw points up to it. -/
def consecutiveTotals (dist : Point → Point → ℚ) (prev : Point)
    (total : ℚ) : List Point → List (Point × ℚ)
  | [] => []
  | point :: rest =>
    let total' := total + dist prev point
    (point, total') :: consecutiveTotals dist point total' rest

/-- Threshold filtering of a cumulative-totals list: keep an entry when no
marker has been recorded yet or its total minus the recorded (rounded)
distance of the last kept entry reaches the interval. -/
def markersFromTotals (interval_km : ℚ) (lastRec : Option ℤ) :
    List (Point × ℚ) → List Marker
  | [] => []
  | (point, t) :: rest =>
    match lastRec with
    | none =>
      (point.1, point.2, pythonRound t) ::
        markersFromTotals interval_km (some (pythonRound t)) rest
    | some r =>
      if t - (r : ℚ) ≥ interval_km then
        (point.1, point.2, pythonRound t) ::
          markersFromTotals interval_km (some (pythonRound t)) rest
      else markersFromTotals interval_km (some r) rest

/-- The marker pass decomposed per the spec sentence of C2: first form the
incremental sums of geodesic distances between consecutive raw points, then
filter on those totals. -/
def markersViaConsecutiveTotals (dist : Point → Point → ℚ)
    (all_points : List Point) (interval_km : ℚ) : List Marker :=
  match all_points with
  | [] => []
  | p0 :: rest => markersFromTotals interval_km none (consecutiveTotals dist p0 0 rest)

/-- The coarse pass amended: seed with the first point and accumulate, at
each raw point, the geodesic distance from the last accepted point to that
point. -/
def coarseByBaseSample (dist : Point → Point → ℚ) (all_points : List Point)
    (interval_km : ℚ) : List Point :=
  match all_points with
  | [] => []
  | p0 :: rest => p0 :: coarseByBase dist interval_km p0 0 rest

/-- Deduplication as worded by the spec: keep the first record of each
name, dropping every later record sharing that name. -/
def firstOccurrencePerName : List LockerRecord → List LockerRecord
  | [] => []
  | r :: rest =>
    r :: firstOccurrencePerName (rest.filter fun s => decide (s.name ≠ r.name))
termination_by l => l.length
decreasing_by
  simp only [List.length_cons]
  exact Nat.lt_succ_of_le (List.length_filter_le _ _)

/-- The exact great-circle distance, in kilometres, between two points on
the equator, with one degree of longitude equal to 1000/9 km (≈ 111.11 km):
a concrete instance of the abstract geodesic distance, used to evaluate the
samplers on explicit inputs. -/
def equatorDistKm (p q : Point) : ℚ := 1000/9 * |q.2 - p.2|

/-- The recorded-distance fields (third components) of a marker list. -/
def recordedKm (markers : List Marker) : List ℤ :=
  markers.map fun m => m.2.2

/-- An integer sequence is non-decreasing from first to last. -/
def intNondecreasing (l : List ℤ) : Prop := List.Chain' (· ≤ ·) l

instance (l : List ℤ) : Decidable (intNondecreasing l) := by
  unfold intNondecreasing; infer_instance

/-- A string that ends in a decimal point followed by exactly six
characters: the shape of a fixed six-decimal-place rendering. -/
def sixDecimalFixed (s : String) : Prop :=
  ∃ h t, s = h ++ "." ++ t ∧ t.length = 6

/-! ## Helper lemmas shared by the claim theorems -/

/-- Banker's rounding never goes below the floor. -/
theorem floor_le_pythonRound (q : ℚ) : ⌊q⌋ ≤ pythonRound q := by
  unfold pythonRound
  dsimp only
  split
  · exact le_refl _
  · split
    · exact Int.le_add_one (le_refl _)
    · split
      · exact le_refl _
      · exact Int.le_add_one (le_refl _)

/-- An integer strictly below a rational is at most its banker's rounding. -/
theorem le_pythonRound_of_lt {r : ℤ} {q : ℚ} (h : (r : ℚ) < q) :
    r ≤ pythonRound q :=
  le_trans (Int.le_floor.mpr h.le) (floor_le_pythonRound q)

/-- The coarse-pass loop only ever appends to its accumulated list; the
appended part is described by `coarseByBase`. -/
theorem coarseLoop_eq_append (dist : Point → Point → ℚ) (interval_km : ℚ)
    (l : List Point) : ∀ (sampled : List Point) (last_added : Point) (acc : ℚ),
    coarseLoop dist interval_km sampled last_added acc l =
      sampled ++ coarseByBase dist interval_km last_added acc l := by
  induction l with
  | nil => intro sampled last acc; simp [coarseLoop, coarseByBase]
  | cons p rest ih =>
    intro sampled last acc
    simp only [coarseLoop, coarseByBase]
    split
    · rw [ih]; simp
    · rw [ih]

/-- The marker-pass loop only ever appends to its accumulated list; its
state is captured by the recorded distance of the last marker so far. -/
theorem markersLoop_eq_append (dist : Point → Point → ℚ) (interval_km : ℚ)
    (l : List Point) : ∀ (markers : List Marker) (total : ℚ) (last_point : Point),
    markersLoop dist interval_km markers total last_point l =
      markers ++ markersByLastRecorded dist interval_km
        (markers.getLast?.map fun m => m.2.2) total last_point l := by
  induction l with
  | nil => intro markers total last; simp [markersLoop, markersByLastRecorded]
  | cons p rest ih =>
    intro markers total last
    simp only [markersLoop, markersByLastRecorded]
    cases hm : markers.getLast? with
    | none =>
      have hnil : markers = [] := List.getLast?_eq_none_iff.mp hm
      subst hnil
      simp only [Option.map_none', List.nil_append]
      rw [ih]
      simp [List.getLast?_singleton]
    | some m =>
      simp only [Option.map_some']
      split
      · rw [ih]
        simp [List.getLast?_concat]
      · rw [ih, hm]
        simp

/-- The emitting form of the marker pass is threshold filtering of the
cumulative consecutive-distance totals. -/
theorem markersByLastRecorded_eq_fromTotals (dist : Point → Point → ℚ)
    (interval_km : ℚ) (l : List Point) :
    ∀ (lastRec : Option ℤ) (total : ℚ) (last_point : Point),
    markersByLastRecorded dist interval_km lastRec total last_point l =
      markersFromTotals interval_km lastRec
        (consecutiveTotals dist last_point total l) := by
  induction l with
  | nil =>
    intro lastRec total last
    simp [markersByLastRecorded, consecutiveTotals, markersFromTotals]
  | cons p rest ih =>
    intro lastRec total last
    cases lastRec with
    | none =>
      simp only [markersByLastRecorded, consecutiveTotals, markersFromTotals]
      rw [ih]
    | some r =>
      simp only [markersByLastRecorded, consecutiveTotals, markersFromTotals]
      split
      · rw [ih]
      · rw [ih]

/-- Recorded distances emitted by the marker pass never drop below the
recorded distance of the last accepted marker, and are pairwise
non-decreasing, as long as the interval is positive. -/
theorem markersByLastRecorded_chain (dist : Point → Point → ℚ)
    (interval_km : ℚ) (hpos : 0 < interval_km) (l : List Point) :
    ∀ (lastRec : Option ℤ) (total : ℚ) (last_point : Point),
    List.Chain' (· ≤ ·)
      ((lastRec.elim [] fun r => [r]) ++
        recordedKm (markersByLastRecorded dist interval_km lastRec total last_point l)) := by
  induction l with
  | nil =>
    intro lastRec total last
    cases lastRec <;> simp [markersByLastRecorded, recordedKm]
  | cons p rest ih =>
    intro lastRec total last
    cases lastRec with
    | none =>
      simp only [markersByLastRecorded, Option.elim, List.nil_append,
        recordedKm, List.map_cons]
      have h2 := ih (some (pythonRound (total + dist last p)))
        (total + dist last p) p
      simpa [recordedKm] using h2
    | some r =>
      simp only [markersByLastRecorded, Option.elim, List.singleton_append,
        recordedKm]
      split
      · rename_i hcond
        have hlt : (r : ℚ) < total + dist last p := by
          rw [ge_iff_le] at hcond; linarith
        have hle : r ≤ pythonRound (total + dist last p) :=
          le_pythonRound_of_lt hlt
        have h2 := ih (some (pythonRound (total + dist last p)))
          (total + dist last p) p
        simp only [Option.elim, List.singleton_append, recordedKm,
          List.map_cons] at h2
        exact List.chain'_cons.mpr ⟨hle, h2⟩
      · have h2 := ih (some r) (total + dist last p) p
        simpa [recordedKm] using h2

/-- Emitting form of the deduplication loop: the records appended by
`dedupLoop` given the names seen so far. -/
def dedupEmit (seen : List String) : List LockerRecord → List LockerRecord
  | [] => []
  | r :: rest =>
    if r.name ∈ seen then dedupEmit seen rest
    else r :: dedupEmit (r.name :: seen) rest

/-- The deduplication loop only ever appends to its accumulated list. -/
theorem dedupLoop_eq_append (l : List LockerRecord) :
    ∀ (seen : List String) (unique : List LockerRecord),
    dedupLoop seen unique l = unique ++ dedupEmit seen l := by
  induction l with
  | nil => intro seen unique; simp [dedupLoop, dedupEmit]
  | cons r rest ih =>
    intro seen unique
    simp only [dedupLoop, dedupEmit]
    split
    · rw [ih]
    · rw [ih]; simp

/-- The emitting deduplication, started with a seen-set, keeps the first
occurrence of each name not yet seen. -/
theorem dedupEmit_eq_firstOcc :
    ∀ (n : ℕ) (l : List LockerRecord), l.length ≤ n → ∀ (seen : List String),
    dedupEmit seen l =
      firstOccurrencePerName (l.filter fun r => decide (r.name ∉ seen)) := by
  intro n
  induction n with
  | zero =>
    intro l hl seen
    have : l = [] := List.length_eq_zero.mp (Nat.le_zero.mp hl)
    subst this
    simp [dedupEmit, firstOccurrencePerName]
  | succ n ih =>
    intro l hl seen
    cases l with
    | nil => simp [dedupEmit, firstOccurrencePerName]
    | cons r rest =>
      have hrest : rest.length ≤ n := by
        simp only [List.length_cons] at hl; omega
      simp only [dedupEmit]
      split
      · rename_i hmem
        rw [ih rest hrest seen]
        have : (r :: rest).filter (fun s => decide (s.name ∉ seen)) =
            rest.filter (fun s => decide (s.name ∉ seen)) := by
          simp [List.filter_cons, hmem]
        rw [this]
      · rename_i hmem
        have hfil : (r :: rest).filter (fun s => decide (s.name ∉ seen)) =
            r :: rest.filter (fun s => decide (s.name ∉ seen)) := by
          simp [List.filter_cons, hmem]
        rw [hfil]
        rw [firstOccurrencePerName]
        rw [List.filter_filter]
        have hcong : rest.filter
            (fun a => decide (a.name ≠ r.name) && decide (a.name ∉ seen)) =
            rest.filter (fun a => decide (a.name ∉ r.name :: seen)) := by
          apply List.filter_congr
          intro x _
          by_cases h1 : x.name = r.name <;> by_cases h2 : x.name ∈ seen <;>
            simp [h1, h2]
        rw [hcong, ih rest hrest (r.name :: seen)]

/-- The deduplicated list computed by `main` keeps exactly the first
record of each distinct name. -/
theorem uniqueLockers_eq_firstOcc (l : List LockerRecord) :
    uniqueLockers l = firstOccurrencePerName l := by
  unfold uniqueLockers
  rw [dedupLoop_eq_append, List.nil_append,
    dedupEmit_eq_firstOcc l.length l (le_refl _) []]
  have : l.filter (fun r => decide (r.name ∉ ([] : List String))) = l := by
    have : ∀ x ∈ l, (fun r : LockerRecord => decide (r.name ∉ ([] : List String))) x =
        (fun _ => true) x := by
      intro x _; simp
    rw [List.filter_congr this, List.filter_true]
  rw [this]

/-- The emitting form of the coarse pass is a sublist of its input. -/
theorem coarseByBase_sublist (dist : Point → Point → ℚ) (interval_km : ℚ)
    (l : List Point) : ∀ (base : Point) (acc : ℚ),
    (coarseByBase dist interval_km base acc l).Sublist l := by
  induction l with
  | nil => intro base acc; simp [coarseByBase]
  | cons p rest ih =>
    intro base acc
    simp only [coarseByBase]
    split
    · exact List.Sublist.cons₂ p (ih p 0)
    · exact List.Sublist.cons p (ih base _)


/-- The fractional part rendered by `format6` always has exactly six
characters. -/
theorem fracDigits6_length (m : ℕ) : (fracDigits6 m).length = 6 := rfl

/-- Every string produced by `format6` has a decimal point followed by
exactly six fractional characters. -/
theorem format6_sixDecimalFixed (q : ℚ) : sixDecimalFixed (format6 q) :=
  ⟨(if q < 0 then "-" else "") ++
      toString ((pythonRound (q * 1000000)).natAbs / 1000000),
    fracDigits6 ((pythonRound (q * 1000000)).natAbs % 1000000),
    rfl, fracDigits6_length _⟩

/-! ## Claim theorems -/

/-- C1: the claim says that on a non-200 status or a transport failure the
run does not raise or abort and the point contributes zero records.  The
code instead aborts: `get_nearby_parcel_lockers` returns the Python list
`[]` on failure, and `main` calls `.get("items", [])` on it, which raises
`AttributeError`.  This theorem evaluates the fetch loop of `main` at a
single query point whose response is HTTP 500, and at one whose request
fails at transport level: in both cases the run ends in `AttributeError`
instead of accumulating zero records. -/
theorem fetch_failure_aborts_run :
    mainFetchLoop (fun _ => HttpResult.response 500 ⟨none⟩) []
      [((0 : ℚ), (0 : ℚ))] = Except.error PyError.attributeError ∧
    mainFetchLoop (fun _ => HttpResult.transportError "timeout") []
      [((0 : ℚ), (0 : ℚ))] = Except.error PyError.attributeError :=
  ⟨rfl, rfl⟩

/-- C2 counterexample: on the equatorial track (0,0), (0,0.009), (0,0.018)
(consecutive points 1 km apart) with interval 2.5 km, the coarse pass of the
code accepts the third point (its accumulator reaches 1 km + 2 km = 3 km)
while a pass summing geodesic distances between consecutive raw points would
accept nothing (total 2 km).  Hence the coarse pass does not accumulate the
sum of distances between consecutive raw points as claimed. -/
theorem coarse_not_consecutive_sum_cex :
    parse_gpx_points_every_n_km equatorDistKm
      [(0, 0), (0, 9/1000), (0, 18/1000)] (5/2) ≠
    coarseConsecutiveSample equatorDistKm
      [(0, 0), (0, 9/1000), (0, 18/1000)] (5/2) := by
  have h1 : parse_gpx_points_every_n_km equatorDistKm
      [(0, 0), (0, 9/1000), (0, 18/1000)] (5/2) = [(0, 0), (0, 9/500)] := by
    norm_num [parse_gpx_points_every_n_km, coarseLoop, equatorDistKm, abs_of_nonneg]
  have h2 : coarseConsecutiveSample equatorDistKm
      [(0, 0), (0, 9/1000), (0, 18/1000)] (5/2) = [(0, 0)] := by
    norm_num [coarseConsecutiveSample, coarseConsecutive, equatorDistKm, abs_of_nonneg]
  rw [h1, h2]
  simp

/-- C2 amended: the marker pass accumulates the sum of geodesic distances
between consecutive raw points (it equals threshold filtering of the
cumulative consecutive-distance totals), while the coarse pass accumulates,
at each raw point, the geodesic distance from the last accepted point to
that point. -/
theorem sampler_accumulation_amended (dist : Point → Point → ℚ)
    (all_points : List Point) (interval_km : ℚ) :
    get_distance_markers dist all_points interval_km =
      markersViaConsecutiveTotals dist all_points interval_km ∧
    parse_gpx_points_every_n_km dist all_points interval_km =
      coarseByBaseSample dist all_points interval_km := by
  constructor
  · cases all_points with
    | nil => rfl
    | cons p0 rest =>
      simp only [get_distance_markers, markersViaConsecutiveTotals]
      rw [markersLoop_eq_append, markersByLastRecorded_eq_fromTotals]
      simp
  · cases all_points with
    | nil => rfl
    | cons p0 rest =>
      simp only [parse_gpx_points_every_n_km, coarseByBaseSample]
      rw [coarseLoop_eq_append]
      simp

/-- C3 counterexample: with an empty track both sampling passes do return
empty sequences, but the run does not complete with a map: the renderer
indexes the midpoint of the empty route list, so `create_map_with_lockers`
on the empty route raises instead of producing a map. -/
theorem empty_track_map_not_ok_cex :
    ¬ ∃ m : FoliumMap, create_map_with_lockers [] [] [] = Except.ok m := by
  intro h
  obtain ⟨m, hm⟩ := h
  simp [create_map_with_lockers] at hm

/-- C3 amended: given an empty track, both sampling passes return an empty
sequence without error, but the run then aborts in the map renderer with an
IndexError from indexing the middle of the empty route list; no map is
produced. -/
theorem empty_track_amended (dist : Point → Point → ℚ) (interval_km : ℚ) :
    parse_gpx_points_every_n_km dist [] interval_km = [] ∧
    get_distance_markers dist [] interval_km = [] ∧
    create_map_with_lockers [] [] [] = Except.error PyError.indexError :=
  ⟨rfl, rfl, rfl⟩

/-- C4 counterexample: on an equatorial track of two points 1 km apart with
interval 10 km, the code's marker pass records a marker at the second point
(the list is empty, so the point is accepted unconditionally), while the
claimed rule (accept exactly when total distance since start minus the last
accepted total reaches the interval) records none. -/
theorem marker_acceptance_cex :
    get_distance_markers equatorDistKm [(0, 0), (0, 9/1000)] 10 ≠
      claimedMarkers equatorDistKm [(0, 0), (0, 9/1000)] 10 := by
  have h1 : get_distance_markers equatorDistKm [(0, 0), (0, 9/1000)] 10 =
      [(0, 9/1000, 1)] := by
    norm_num [get_distance_markers, markersLoop, equatorDistKm, pythonRound,
      abs_of_nonneg]
  have h2 : claimedMarkers equatorDistKm [(0, 0), (0, 9/1000)] 10 = [] := by
    norm_num [claimedMarkers, markersByExactTotals, equatorDistKm, abs_of_nonneg]
  rw [h1, h2]
  simp

/-- C4 amended: the marker pass accepts a point exactly when no marker has
been recorded yet, or when the point's total geodesic distance since the
start of the track minus the recorded (rounded) distance of the last
accepted marker is at least the interval; it records (latitude, longitude,
rounded total distance) for each accepted point. -/
theorem marker_acceptance_amended (dist : Point → Point → ℚ)
    (all_points : List Point) (interval_km : ℚ) :
    get_distance_markers dist all_points interval_km =
      amendedMarkers dist all_points interval_km := by
  cases all_points with
  | nil => rfl
  | cons p0 rest =>
    simp only [get_distance_markers, amendedMarkers]
    rw [markersLoop_eq_append]
    simp

/-- C5: for every concatenated fetched-record list, the deduplication loop
of `main` keeps, for each distinct name, exactly the first record with that
name in arrival order, and drops all later records sharing that name
(whatever their coordinates): it equals keep-first-occurrence-per-name
filtering. -/
theorem dedup_keeps_first_occurrence (all_lockers : List LockerRecord) :
    uniqueLockers all_lockers = firstOccurrencePerName all_lockers :=
  uniqueLockers_eq_firstOcc all_lockers

/-- C6: for an empty raw point sequence the coarse sample is empty, and for
every non-empty raw point sequence the coarse sample is non-empty and its
first element is the first raw point of the track. -/
theorem coarse_sample_head (dist : Point → Point → ℚ) (interval_km : ℚ) :
    parse_gpx_points_every_n_km dist [] interval_km = [] ∧
    ∀ (p0 : Point) (rest : List Point),
      0 < (parse_gpx_points_every_n_km dist (p0 :: rest) interval_km).length ∧
      (parse_gpx_points_every_n_km dist (p0 :: rest) interval_km).head? = some p0 := by
  refine ⟨rfl, fun p0 rest => ?_⟩
  simp only [parse_gpx_points_every_n_km]
  rw [coarseLoop_eq_append]
  exact ⟨by simp, by simp⟩

/-- C7: for every input point sequence and positive interval, the recorded
distance values of the marker-pass output (the third components) are
non-decreasing from first to last.  (Equal consecutive recorded values are
possible because the recorded value is rounded, so "monotonically
increasing" is read as non-decreasing.) -/
theorem marker_distances_monotone (dist : Point → Point → ℚ)
    (interval_km : ℚ) (hpos : 0 < interval_km) (all_points : List Point) :
    intNondecreasing (recordedKm (get_distance_markers dist all_points interval_km)) := by
  cases all_points with
  | nil => simp [get_distance_markers, recordedKm, intNondecreasing]
  | cons p0 rest =>
    simp only [get_distance_markers]
    rw [markersLoop_eq_append]
    have h := markersByLastRecorded_chain dist interval_km hpos rest none 0 p0
    simpa [recordedKm, intNondecreasing] using h

/-- C7 witness: on the concrete equatorial two-point track with interval
10 km the recorded marker distances are non-decreasing. -/
theorem marker_distances_monotone_witness :
    intNondecreasing (recordedKm (get_distance_markers equatorDistKm
      [(0, 0), (0, 9/100)] 10)) :=
  marker_distances_monotone equatorDistKm 10 (by norm_num) [(0, 0), (0, 9/100)]

/-- C8: for a three-point track whose consecutive points are 15 km apart by
geodesic distance, coarse sampling with interval 10 returns all three points
in order: the first as seed, and each subsequent point accepted because the
accumulated distance of its segment meets the interval. -/
theorem three_point_scenario (dist : Point → Point → ℚ) (p0 p1 p2 : Point)
    (h01 : dist p0 p1 = 15) (h12 : dist p1 p2 = 15) :
    parse_gpx_points_every_n_km dist [p0, p1, p2] 10 = [p0, p1, p2] := by
  simp only [parse_gpx_points_every_n_km, coarseLoop, h01, h12]
  norm_num [coarseLoop]

/-- C8 witness: the scenario instantiated with the equatorial great-circle
distance and the track (0,0), (0,0.135), (0,0.27), whose consecutive points
are exactly 15 km apart. -/
theorem three_point_scenario_witness :
    parse_gpx_points_every_n_km equatorDistKm
      [(0, 0), (0, 27/200), (0, 27/100)] 10 =
      [(0, 0), (0, 27/200), (0, 27/100)] :=
  three_point_scenario equatorDistKm (0, 0) (0, 27/200) (0, 27/100)
    (by norm_num [equatorDistKm, abs_of_nonneg])
    (by norm_num [equatorDistKm, abs_of_nonneg])

/-- C9: the locator request carries query parameters `type=parcel_locker`,
`relative_point` equal to the latitude and longitude each formatted to
exactly six decimal places joined by a comma, `max_distance` equal to the
radius converted (as Python `int()`) to a whole number of meters,
`sort=distance`, and the header `Authorization: Bearer <token>`. -/
theorem locker_request_shape (lat lon radius_km : ℚ) (token : String) :
    (lockersRequest lat lon radius_km token).params.type = "parcel_locker" ∧
    (lockersRequest lat lon radius_km token).params.relative_point =
      format6 lat ++ "," ++ format6 lon ∧
    sixDecimalFixed (format6 lat) ∧ sixDecimalFixed (format6 lon) ∧
    (lockersRequest lat lon radius_km token).params.max_distance =
      pyInt (radius_km * 1000) ∧
    (lockersRequest lat lon radius_km token).params.sort = "distance" ∧
    ("Authorization", "Bearer " ++ token) ∈
      (lockersRequest lat lon radius_km token).headers :=
  ⟨rfl, rfl, format6_sixDecimalFixed lat, format6_sixDecimalFixed lon,
    rfl, rfl, by simp [lockersRequest]⟩

/-- C10: for every raw point sequence and interval, the coarse sample is a
subsequence of the raw point sequence: every sampled point is one of the raw
points with its exact coordinates, in the same relative order. -/
theorem coarse_sample_sublist (dist : Point → Point → ℚ)
    (all_points : List Point) (interval_km : ℚ) :
    (parse_gpx_points_every_n_km dist all_points interval_km).Sublist all_points := by
  cases all_points with
  | nil => simp [parse_gpx_points_every_n_km]
  | cons p0 rest =>
    simp only [parse_gpx_points_every_n_km]
    rw [coarseLoop_eq_append]
    exact List.Sublist.cons₂ p0 (coarseByBase_sublist dist interval_km rest p0 0)

end PaczkomatFinder
